import Mathlib

/-!
# Regrets: the review page script `app/static/js/main.js`

A shallow embedding of the page script and the DOM objects it touches.

* The document is a record of the seven elements the script looks up by id;
  an element that is not in the document is `none`, which is what
  `document.getElementById` answers with `null`.
* A handler is a function from the page before the call to an `Outcome`:
  the page after the call, tagged with whether the call returned or stopped
  at an uncaught exception (the effects made before the exception stay).
* Clock readings (`performance.now()`) are rationals, in milliseconds; the
  script only subtracts two readings, divides by the constant `totalTime` and
  compares with it.
* `disabled`, `value` and `submit()` are the only parts of the buttons, the
  hidden input and the form the script uses; the bitmap of the canvas is kept
  as the fraction of the turn last drawn.
* The user's answer to `confirm` and the key of a keyboard event are inputs.
-/

namespace Regrets

/-! ## Data model -/

/-- The `countdown` canvas. `sector` records what the last drawing left on
the bitmap: `none` for a cleared bitmap, `some p` for the filled sector whose
swept angle is the fraction `p` of the full turn. -/
structure Canvas where
  width : Nat
  height : Nat
  sector : Option ℚ
  deriving DecidableEq, Repr

/-- The hidden input `regretValue`. `writes` records every assignment made to
`value`, most recent first. -/
structure HiddenInput where
  value : String
  writes : List String
  deriving DecidableEq, Repr

/-- The form `regretForm`; `submits` counts the calls of its `submit()`. -/
structure Form where
  submits : Nat
  deriving DecidableEq, Repr

/-- A response button; the script touches only its `disabled` property. -/
structure Button where
  disabled : Bool
  deriving DecidableEq, Repr

/-- A pending `requestAnimationFrame(drawCountdown)`: the closure
`drawCountdown` of one `startCountdown` call, which captured `startTime`. -/
structure FrameCallback where
  startTime : ℚ
  deriving DecidableEq, Repr

/-- The state of the page the script runs in. -/
structure Page where
  /-- element `countdown` -/
  countdown : Option Canvas
  /-- element `regretValue` -/
  regretValue : Option HiddenInput
  /-- element `regretForm` -/
  regretForm : Option Form
  /-- element `noRegretBtn` -/
  noRegretBtn : Option Button
  /-- element `noRememberBtn` -/
  noRememberBtn : Option Button
  /-- element `regretBtn` -/
  regretBtn : Option Button
  /-- element `skipBtn` -/
  skipBtn : Option Button
  /-- number of `keydown` listeners registered on `document`; every one of
  them is a copy of the function expression in `activateInputs` -/
  keydownListeners : Nat
  /-- animation frame callbacks requested and not yet run, oldest first -/
  frameRequests : List FrameCallback
  /-- number of calls of `activateInputs` so far -/
  activateCalls : Nat
  /-- the URL last assigned to `window.location.href`, if any -/
  navigationTarget : Option String
  deriving DecidableEq, Repr

/-- How a call ended: it returned, or it stopped at an uncaught exception.
Either way `page` is the state the call left behind. -/
inductive Outcome where
  | returned (page : Page)
  | threw (page : Page)
  deriving DecidableEq, Repr

/-- The page a call left behind. -/
def Outcome.page : Outcome → Page
  | .returned p => p
  | .threw p => p

/-- Whether the call stopped at an uncaught exception. -/
def Outcome.failed : Outcome → Bool
  | .returned _ => false
  | .threw _ => true

/-! ## `window.confirmFinishExperiment` -/

/-- The text of the confirmation dialog. -/
def confirmText : String := "Are you sure you want to finish the experiment?."

/-- What a call of `confirmFinishExperiment` leaves: the dialogs it showed
and the page. -/
structure Confirmed where
  dialogs : List String
  page : Page
  deriving DecidableEq, Repr

/-- `window.confirmFinishExperiment`; `accepted` is the user's answer to the
dialog. -/
def confirmFinishExperiment (s : Page) (accepted : Bool) : Confirmed :=
  if accepted then
    { dialogs := [confirmText], page := { s with navigationTarget := some "/review" } }
  else
    { dialogs := [confirmText], page := s }

/-! ## `triggerOption` -/

/-- The elements the script can hold a reference to. -/
inductive ElementRef where
  | countdown | regretValue | regretForm
  | noRegretBtn | noRememberBtn | regretBtn | skipBtn
  deriving DecidableEq, Repr

/-- `document.getElementById(id)` as a reference; `none` is `null`. -/
def getElementById (s : Page) (id : String) : Option ElementRef :=
  if id = "countdown" then s.countdown.map (fun _ => .countdown)
  else if id = "regretValue" then s.regretValue.map (fun _ => .regretValue)
  else if id = "regretForm" then s.regretForm.map (fun _ => .regretForm)
  else if id = "noRegretBtn" then s.noRegretBtn.map (fun _ => .noRegretBtn)
  else if id = "noRememberBtn" then s.noRememberBtn.map (fun _ => .noRememberBtn)
  else if id = "regretBtn" then s.regretBtn.map (fun _ => .regretBtn)
  else if id = "skipBtn" then s.skipBtn.map (fun _ => .skipBtn)
  else none

/-- `triggerOption(button, value)`: assign `value` to the hidden input, then
submit the form. Each `getElementById` result is dereferenced at once, so a
missing element stops the call there. -/
def triggerOption (s : Page) (_button : Option ElementRef) (value : String) : Outcome :=
  match s.regretValue with
  | none => .threw s
  | some input =>
    let s1 := { s with regretValue := some { value := value, writes := value :: input.writes } }
    match s1.regretForm with
    | none => .threw s1
    | some form => .returned { s1 with regretForm := some { submits := form.submits + 1 } }

/-! ## `activateInputs` -/

/-- The array `buttons` of `activateInputs`. -/
def buttons : List String := ["noRegretBtn", "noRememberBtn", "regretBtn", "skipBtn"]

/-- The button element with the given id, if the document has it. -/
def getButton (s : Page) (btnId : String) : Option Button :=
  if btnId = "noRegretBtn" then s.noRegretBtn
  else if btnId = "noRememberBtn" then s.noRememberBtn
  else if btnId = "regretBtn" then s.regretBtn
  else if btnId = "skipBtn" then s.skipBtn
  else none

/-- Store a button element under the given id. -/
def setButton (s : Page) (btnId : String) (b : Button) : Page :=
  if btnId = "noRegretBtn" then { s with noRegretBtn := some b }
  else if btnId = "noRememberBtn" then { s with noRememberBtn := some b }
  else if btnId = "regretBtn" then { s with regretBtn := some b }
  else if btnId = "skipBtn" then { s with skipBtn := some b }
  else s

/-- The loop `buttons.forEach(btnId => document.getElementById(btnId).disabled = false)`
over the ids still to visit: a missing button stops the loop. -/
def enableButtons : List String → Page → Outcome
  | [], s => .returned s
  | btnId :: rest, s =>
    match getButton s btnId with
    | none => .threw s
    | some b => enableButtons rest (setButton s btnId { b with disabled := false })

/-- `activateInputs()`: enable the four buttons, then register the keydown
listener on `document`. -/
def activateInputs (s : Page) : Outcome :=
  match enableButtons buttons { s with activateCalls := s.activateCalls + 1 } with
  | .threw s1 => .threw s1
  | .returned s1 => .returned { s1 with keydownListeners := s1.keydownListeners + 1 }

/-! ## The keydown listener -/

/-- The values a property read of `keyMap` can give. -/
inductive JSValue where
  | undefined
  | string (s : String)
  /-- a built-in function or object inherited from `Object.prototype` -/
  | builtin (name : String)
  deriving DecidableEq, Repr

/-- The property names every object literal inherits from `Object.prototype`. -/
def objectPrototypeKeys : List String :=
  ["constructor", "__defineGetter__", "__defineSetter__", "hasOwnProperty",
   "__lookupGetter__", "__lookupSetter__", "isPrototypeOf", "propertyIsEnumerable",
   "toString", "valueOf", "__proto__", "toLocaleString"]

/-- The property read `keyMap[key]`: the four own properties of the object
literal first, then the prototype chain. -/
def keyMap (key : String) : JSValue :=
  if key = "ArrowRight" then .string "noRegretBtn"
  else if key = "ArrowLeft" then .string "regretBtn"
  else if key = "ArrowUp" then .string "noRememberBtn"
  else if key = "ArrowDown" then .string "skipBtn"
  else if key ∈ objectPrototypeKeys then .builtin key
  else .undefined

/-- JavaScript truthiness of a `keyMap` read. -/
def JSValue.truthy : JSValue → Bool
  | .undefined => false
  | .string s => decide (s ≠ "")
  | .builtin _ => true

/-- Whether `pat` starts the character list. -/
def startsWith : List Char → List Char → Bool
  | _, [] => true
  | [], _ :: _ => false
  | c :: cs, p :: ps => c == p && startsWith cs ps

/-- Replace the first occurrence of `pat`, if there is one, by `rep`. -/
def replaceFirst : List Char → List Char → List Char → List Char
  | [], pat, rep => if pat.isEmpty then rep else []
  | c :: cs, pat, rep =>
    if startsWith (c :: cs) pat then rep ++ (c :: cs).drop pat.length
    else c :: replaceFirst cs pat rep

/-- `str.replace(pattern, replacement)` for a string pattern and a replacement
without `$` patterns: only the first occurrence is replaced. -/
def replace (str pattern replacement : String) : String :=
  String.mk (replaceFirst str.data pattern.data replacement.data)

/-- The keydown listener registered by `activateInputs`, run on an event with
the given `key`. The arguments of the call are evaluated before
`triggerOption` is entered: `keyMap[event.key].replace` exists only on a
string, so for an inherited built-in the call of `replace` raises a
`TypeError` and `triggerOption` is never reached. -/
def keydownListener (s : Page) (key : String) : Outcome :=
  if (keyMap key).truthy then
    match keyMap key with
    | .string btnId => triggerOption s (getElementById s btnId) (replace btnId "Btn" "")
    | _ => .threw s
  else .returned s

/-- One keydown event on `document`: every registered listener runs, in
order; an exception in one listener does not keep the others from running. -/
def dispatchKeydown (s : Page) (key : String) : Page :=
  (fun p => (keydownListener p key).page)^[s.keydownListeners] s

/-! ## `startCountdown` and `drawCountdown` -/

/-- The constant `totalTime`, in milliseconds. -/
def totalTime : ℚ := 5000

/-- The drawing calls of one frame on the canvas: `clearRect`, then the path
with `arc` of radius `width / 2 - 2`, then `fill`. `arc` raises an
`IndexSizeError` for a negative radius; `Except.error` carries the canvas as
the failed drawing left it. -/
def drawSector (canvas : Canvas) (progress : ℚ) : Except Canvas Canvas :=
  let cleared := { canvas with sector := none }
  if (canvas.width : ℚ) / 2 - 2 < 0 then .error cleared
  else .ok { cleared with sector := some progress }

/-- One run of the frame callback `drawCountdown`; `now` is the reading of
`performance.now()`. The callback is only ever created by a `startCountdown`
call that found the canvas, and the script removes no element, so the branch
for a missing canvas is not met in a run of the page; it is given as a failed
call that changes nothing. -/
def drawCountdown (c : FrameCallback) (s : Page) (now : ℚ) : Outcome :=
  let elapsedTime := now - c.startTime
  let progress := elapsedTime / totalTime
  match s.countdown with
  | none => .threw s
  | some canvas =>
    match drawSector canvas progress with
    | .error canvas1 => .threw { s with countdown := some canvas1 }
    | .ok canvas1 =>
      let s1 := { s with countdown := some canvas1 }
      if elapsedTime < totalTime then
        .returned { s1 with frameRequests := s1.frameRequests ++ [c] }
      else
        activateInputs s1

/-- `startCountdown()`; `now` is the reading of `performance.now()`. A
missing canvas stops the call at `countdownCanvas.getContext`. -/
def startCountdown (s : Page) (now : ℚ) : Outcome :=
  match s.countdown with
  | none => .threw s
  | some _ => .returned { s with frameRequests := s.frameRequests ++ [{ startTime := now }] }

/-! ## The page as a state machine -/

/-- The elements of a document as served. -/
structure Document where
  countdown : Option Canvas
  regretValue : Option HiddenInput
  regretForm : Option Form
  noRegretBtn : Option Button
  noRememberBtn : Option Button
  regretBtn : Option Button
  skipBtn : Option Button
  deriving DecidableEq, Repr

/-- The page when the script has been loaded and no handler has run yet. -/
def Document.toPage (d : Document) : Page :=
  { countdown := d.countdown, regretValue := d.regretValue, regretForm := d.regretForm,
    noRegretBtn := d.noRegretBtn, noRememberBtn := d.noRememberBtn,
    regretBtn := d.regretBtn, skipBtn := d.skipBtn,
    keydownListeners := 0, frameRequests := [], activateCalls := 0,
    navigationTarget := none }

/-- The page after `DOMContentLoaded`: the listener of the last lines of the
script has called `startCountdown`. -/
def pageLoaded (d : Document) (now : ℚ) : Page :=
  (startCountdown d.toPage now).page

/-- What the browser can do to the page next. -/
inductive Event where
  /-- an animation frame; `now` is the clock reading inside the callback -/
  | frame (now : ℚ)
  /-- a keydown event with the given key -/
  | keydown (key : String)
  /-- a call of `confirmFinishExperiment` with the user's answer -/
  | finish (accepted : Bool)
  deriving DecidableEq, Repr

/-- One event. An animation frame runs the oldest requested callback, which
is taken off the list before it runs; with nothing requested it does nothing. -/
def step (s : Page) : Event → Page
  | .frame now =>
    match s.frameRequests with
    | [] => s
    | c :: rest => (drawCountdown c { s with frameRequests := rest } now).page
  | .keydown key => dispatchKeydown s key
  | .finish accepted => (confirmFinishExperiment s accepted).page

/-- A run of events from a page. -/
def run (s : Page) (events : List Event) : Page :=
  events.foldl step s

/-! ## Sample pages and value sets -/

/-- A complete page as served: a 300 by 150 canvas, an empty hidden input, a
form never submitted and the four buttons disabled. -/
def sampleDocument : Document :=
  { countdown := some { width := 300, height := 150, sector := none },
    regretValue := some { value := "", writes := [] },
    regretForm := some { submits := 0 },
    noRegretBtn := some { disabled := true },
    noRememberBtn := some { disabled := true },
    regretBtn := some { disabled := true },
    skipBtn := some { disabled := true } }

/-- The sample document before any handler has run. -/
def samplePage : Page := sampleDocument.toPage

/-- The pairs of the object literal `keyMap`, each with the value the
listener hands to `triggerOption`. -/
def keyTable : List (String × String × String) :=
  [("ArrowRight", "noRegretBtn", "noRegret"), ("ArrowLeft", "regretBtn", "regret"),
   ("ArrowUp", "noRememberBtn", "noRemember"), ("ArrowDown", "skipBtn", "skip")]

/-- The set of response values as the specification's data model lists it. -/
def specResponseValues : List String := ["noregret", "noremember", "regret", "skip"]

/-- All four buttons are in the document. -/
def Page.hasButtons (s : Page) : Bool :=
  s.noRegretBtn.isSome && s.noRememberBtn.isSome && s.regretBtn.isSome && s.skipBtn.isSome

/-- The drawing calls of a frame go through: the canvas is there and the
radius `width / 2 - 2` handed to `arc` is not negative. -/
def Page.drawable (s : Page) : Bool :=
  match s.countdown with
  | none => false
  | some canvas => decide (¬ ((canvas.width : ℚ) / 2 - 2 < 0))

/-- The page after `n` calls of `activateInputs` in a row. -/
def activateTimes (n : Nat) (s : Page) : Page :=
  (fun p => (activateInputs p).page)^[n] s

/-- The sample page without the element `noRememberBtn`. -/
def pageWithoutNoRememberBtn : Page := { samplePage with noRememberBtn := none }

/-- The countdown invariant: a frame is pending or `activateInputs` has been
called, never both and neither twice; a listener is registered only by a call
of `activateInputs`, and by every call when the four buttons are there. -/
def CountdownInv (s : Page) : Prop :=
  s.activateCalls + s.frameRequests.length ≤ 1
  ∧ s.keydownListeners ≤ s.activateCalls
  ∧ (s.hasButtons = true → s.keydownListeners = s.activateCalls)

/-- The waiting invariant: no listener, the hidden input and the form as given,
and every pending frame callback is of the countdown started at `start`. -/
def WaitingInv (rv : Option HiddenInput) (rf : Option Form) (start : ℚ) (s : Page) : Prop :=
  s.keydownListeners = 0 ∧ s.regretValue = rv ∧ s.regretForm = rf
  ∧ ∀ c ∈ s.frameRequests, c.startTime = start

/-! ## Basic facts -/

@[simp]
theorem page_returned (p : Page) : (Outcome.returned p).page = p := rfl

@[simp]
theorem page_threw (p : Page) : (Outcome.threw p).page = p := rfl

@[simp]
theorem failed_returned (p : Page) : (Outcome.returned p).failed = false := rfl

@[simp]
theorem failed_threw (p : Page) : (Outcome.threw p).failed = true := rfl

/-- The reads of `keyMap` that give a string are the four own properties. -/
theorem keyMap_string (key btnId : String) :
    keyMap key = .string btnId ↔ (key, btnId, replace btnId "Btn" "") ∈ keyTable := by
  unfold keyMap keyTable
  constructor
  · intro h
    split_ifs at h with h1 h2 h3 h4 h5 <;> simp at h <;> subst h
    · subst h1; decide
    · subst h2; decide
    · subst h3; decide
    · subst h4; decide
  · intro h
    simp only [List.mem_cons, Prod.mk.injEq, List.mem_singleton, List.not_mem_nil, or_false] at h
    rcases h with ⟨rfl, rfl, -⟩ | ⟨rfl, rfl, -⟩ | ⟨rfl, rfl, -⟩ | ⟨rfl, rfl, -⟩ <;> decide

/-- Each row of `keyTable` is a pair of `keyMap` together with the button id
minus its trailing `Btn`. -/
theorem keyTable_mem (key btnId value : String) (hk : (key, btnId, value) ∈ keyTable) :
    keyMap key = .string btnId ∧ value = replace btnId "Btn" "" ∧ btnId = value ++ "Btn" := by
  simp only [keyTable, List.mem_cons, Prod.mk.injEq, List.mem_singleton, List.not_mem_nil,
    or_false] at hk
  rcases hk with ⟨rfl, rfl, rfl⟩ | ⟨rfl, rfl, rfl⟩ | ⟨rfl, rfl, rfl⟩ | ⟨rfl, rfl, rfl⟩ <;>
    decide

/-- A key outside the four own properties of `keyMap` leaves the page as it is. -/
theorem keydownListener_unmapped (s : Page) (key : String)
    (h : key ∉ ["ArrowRight", "ArrowLeft", "ArrowUp", "ArrowDown"]) :
    (keydownListener s key).page = s := by
  simp only [List.mem_cons, List.mem_singleton, List.not_mem_nil, or_false, not_or] at h
  obtain ⟨h1, h2, h3, h4⟩ := h
  unfold keydownListener keyMap
  simp only [h1, h2, h3, h4, if_false]
  by_cases hk : key ∈ objectPrototypeKeys <;> simp [hk, JSValue.truthy]

/-- A mapped key makes the listener one call of `triggerOption`. -/
theorem keydownListener_mapped (s : Page) (key btnId : String)
    (h : keyMap key = .string btnId) :
    keydownListener s key
      = triggerOption s (getElementById s btnId) (replace btnId "Btn" "") := by
  have hne : btnId ≠ "" := by
    rintro rfl
    rw [keyMap_string] at h
    simp [keyTable] at h
  unfold keydownListener
  rw [h]
  simp [JSValue.truthy, hne]

/-- With the hidden input and the form in the document `triggerOption` returns. -/
theorem triggerOption_present (s : Page) (b : Option ElementRef) (v : String)
    (input : HiddenInput) (form : Form)
    (hv : s.regretValue = some input) (hf : s.regretForm = some form) :
    triggerOption s b v
      = .returned { s with regretValue := some { value := v, writes := v :: input.writes },
                           regretForm := some { submits := form.submits + 1 } } := by
  simp [triggerOption, hv, hf]

/-- A call of `triggerOption` touches the hidden input and the form only. -/
theorem triggerOption_frame (s : Page) (b : Option ElementRef) (v : String) :
    ∃ rv rf, (triggerOption s b v).page = { s with regretValue := rv, regretForm := rf } := by
  refine ⟨(triggerOption s b v).page.regretValue, (triggerOption s b v).page.regretForm, ?_⟩
  unfold triggerOption
  cases hv : s.regretValue with
  | none => simp [← hv]
  | some input =>
    cases hf : s.regretForm with
    | none => simp [← hf]
    | some form => simp

/-- The listener touches the hidden input and the form only. -/
theorem keydownListener_frame (s : Page) (key : String) :
    ∃ rv rf, (keydownListener s key).page = { s with regretValue := rv, regretForm := rf } := by
  unfold keydownListener
  split_ifs
  · split
    · exact triggerOption_frame s _ _
    · exact ⟨s.regretValue, s.regretForm, rfl⟩
  · exact ⟨s.regretValue, s.regretForm, rfl⟩

/-- Any number of runs of the listener touch the hidden input and the form only. -/
theorem iterate_keydownListener_frame (key : String) (n : Nat) (s : Page) :
    ∃ rv rf, (fun p => (keydownListener p key).page)^[n] s
      = { s with regretValue := rv, regretForm := rf } := by
  induction n generalizing s with
  | zero => exact ⟨s.regretValue, s.regretForm, rfl⟩
  | succ n ih =>
    obtain ⟨rv, rf, h⟩ := keydownListener_frame s key
    obtain ⟨rv1, rf1, h1⟩ := ih (keydownListener s key).page
    refine ⟨rv1, rf1, ?_⟩
    rw [Function.iterate_succ_apply, h1, h]

/-- A keydown event touches the hidden input and the form only. -/
theorem dispatchKeydown_frame (s : Page) (key : String) :
    ∃ rv rf, dispatchKeydown s key = { s with regretValue := rv, regretForm := rf } :=
  iterate_keydownListener_frame key s.keydownListeners s

/-- With the four buttons in the document `activateInputs` returns. -/
theorem activateInputs_present (s : Page) (h : s.hasButtons = true) :
    activateInputs s
      = .returned { s with noRegretBtn := some { disabled := false },
                           noRememberBtn := some { disabled := false },
                           regretBtn := some { disabled := false },
                           skipBtn := some { disabled := false },
                           activateCalls := s.activateCalls + 1,
                           keydownListeners := s.keydownListeners + 1 } := by
  simp only [Page.hasButtons, Bool.and_eq_true, Option.isSome_iff_exists] at h
  obtain ⟨⟨⟨⟨b1, h1⟩, ⟨b2, h2⟩⟩, ⟨b3, h3⟩⟩, ⟨b4, h4⟩⟩ := h
  simp [activateInputs, enableButtons, buttons, getButton, setButton, h1, h2, h3, h4]

/-- A keydown event for a key outside the four of `keyMap` leaves the page as it is. -/
theorem dispatchKeydown_unmapped (s : Page) (key : String)
    (h : key ∉ ["ArrowRight", "ArrowLeft", "ArrowUp", "ArrowDown"]) :
    dispatchKeydown s key = s :=
  Function.iterate_fixed (keydownListener_unmapped s key h) _

/-- Running the listener `n` times for a mapped key, on a page with the hidden
input and the form: `n` more assignments and `n` more submits. -/
theorem iterate_keydownListener_mapped (key btnId : String) (h : keyMap key = .string btnId)
    (n : Nat) (s : Page) (input : HiddenInput) (form : Form)
    (hv : s.regretValue = some input) (hf : s.regretForm = some form) :
    (fun p => (keydownListener p key).page)^[n + 1] s
      = { s with
          regretValue := some { value := replace btnId "Btn" "",
                                writes := List.replicate (n + 1) (replace btnId "Btn" "")
                                  ++ input.writes },
          regretForm := some { submits := form.submits + (n + 1) } } := by
  induction n generalizing s input form with
  | zero =>
    simp [keydownListener_mapped s key btnId h, triggerOption_present s _ _ input form hv hf,
      List.replicate]
  | succ n ih =>
    rw [Function.iterate_succ_apply, keydownListener_mapped s key btnId h,
      triggerOption_present s _ _ input form hv hf, page_returned,
      ih _ { value := replace btnId "Btn" "", writes := replace btnId "Btn" "" :: input.writes }
        { submits := form.submits + 1 } rfl rfl]
    simp [List.replicate_succ', Nat.add_assoc, Nat.add_comm 1]

/-- What a call of `activateInputs` can change: the four buttons, the call
count and, when it returns, the listener count. -/
theorem activateInputs_fields (s : Page) :
    (activateInputs s).page.frameRequests = s.frameRequests
    ∧ (activateInputs s).page.activateCalls = s.activateCalls + 1
    ∧ (activateInputs s).page.regretValue = s.regretValue
    ∧ (activateInputs s).page.regretForm = s.regretForm
    ∧ (activateInputs s).page.countdown = s.countdown
    ∧ (activateInputs s).page.navigationTarget = s.navigationTarget
    ∧ (activateInputs s).page.hasButtons = s.hasButtons
    ∧ ((activateInputs s).page.keydownListeners = s.keydownListeners
        ∨ (activateInputs s).page.keydownListeners = s.keydownListeners + 1)
    ∧ (s.hasButtons = true →
        (activateInputs s).page.keydownListeners = s.keydownListeners + 1) := by
  cases h1 : s.noRegretBtn <;> cases h2 : s.noRememberBtn <;> cases h3 : s.regretBtn <;>
    cases h4 : s.skipBtn <;>
    simp [activateInputs, enableButtons, buttons, getButton, setButton, Page.hasButtons,
      h1, h2, h3, h4]

/-- The three ways a frame callback can end: it requested the next frame, it
stopped in the drawing calls, or it called `activateInputs`. -/
theorem drawCountdown_cases (c : FrameCallback) (s : Page) (now : ℚ) :
    (drawCountdown c s now).page.regretValue = s.regretValue
    ∧ (drawCountdown c s now).page.regretForm = s.regretForm
    ∧ (drawCountdown c s now).page.hasButtons = s.hasButtons
    ∧ ((now - c.startTime < totalTime
          ∧ (drawCountdown c s now).page.frameRequests = s.frameRequests ++ [c]
          ∧ (drawCountdown c s now).page.activateCalls = s.activateCalls
          ∧ (drawCountdown c s now).page.keydownListeners = s.keydownListeners)
        ∨ ((drawCountdown c s now).page.frameRequests = s.frameRequests
          ∧ (drawCountdown c s now).page.activateCalls = s.activateCalls
          ∧ (drawCountdown c s now).page.keydownListeners = s.keydownListeners)
        ∨ (totalTime ≤ now - c.startTime
          ∧ (drawCountdown c s now).page.frameRequests = s.frameRequests
          ∧ (drawCountdown c s now).page.activateCalls = s.activateCalls + 1
          ∧ ((drawCountdown c s now).page.keydownListeners = s.keydownListeners
              ∨ (drawCountdown c s now).page.keydownListeners = s.keydownListeners + 1)
          ∧ (s.hasButtons = true →
              (drawCountdown c s now).page.keydownListeners = s.keydownListeners + 1))) := by
  unfold drawCountdown drawSector
  cases hc : s.countdown with
  | none => simp
  | some canvas =>
    by_cases hr : (canvas.width : ℚ) / 2 - 2 < 0
    · simp [hr, Page.hasButtons]
    · by_cases ht : now - c.startTime < totalTime
      · simp [hr, ht, Page.hasButtons]
      · have hf := activateInputs_fields
          { s with countdown := some ⟨canvas.width, canvas.height,
              some ((now - c.startTime) / totalTime)⟩ }
        obtain ⟨f1, f2, f3, f4, -, -, f7, f8, f9⟩ := hf
        simp only [hr, ht, if_false]
        refine ⟨f3, f4, f7, Or.inr (Or.inr ⟨not_lt.mp ht, f1, f2, f8, f9⟩)⟩

/-! ## Invariants of a run -/

/-- A call of `confirmFinishExperiment` touches the navigation target only. -/
theorem confirmFinishExperiment_frame (s : Page) (accepted : Bool) :
    ∃ nav, (confirmFinishExperiment s accepted).page = { s with navigationTarget := nav } := by
  cases accepted
  · exact ⟨s.navigationTarget, rfl⟩
  · exact ⟨some "/review", rfl⟩

theorem run_nil (s : Page) : run s [] = s := rfl

theorem run_cons (s : Page) (e : Event) (es : List Event) :
    run s (e :: es) = run (step s e) es := rfl

theorem step_frame_nil (s : Page) (now : ℚ) (h : s.frameRequests = []) :
    step s (.frame now) = s := by
  simp [step, h]

theorem step_frame_cons (s : Page) (now : ℚ) (c : FrameCallback) (rest : List FrameCallback)
    (h : s.frameRequests = c :: rest) :
    step s (.frame now) = (drawCountdown c { s with frameRequests := rest } now).page := by
  simp [step, h]

/-- The page after `DOMContentLoaded`: the served elements, no listener, no
call of `activateInputs`, and one frame requested if the canvas is there. -/
theorem pageLoaded_fields (d : Document) (start : ℚ) :
    (pageLoaded d start).regretValue = d.regretValue
    ∧ (pageLoaded d start).regretForm = d.regretForm
    ∧ (pageLoaded d start).hasButtons = d.toPage.hasButtons
    ∧ (pageLoaded d start).keydownListeners = 0
    ∧ (pageLoaded d start).activateCalls = 0
    ∧ ((pageLoaded d start).frameRequests = []
        ∨ (pageLoaded d start).frameRequests = [{ startTime := start }]) := by
  unfold pageLoaded startCountdown
  cases hc : d.countdown <;> simp [Document.toPage, hc, Page.hasButtons]

theorem step_hasButtons (s : Page) (e : Event) : (step s e).hasButtons = s.hasButtons := by
  cases e with
  | frame now =>
    cases hq : s.frameRequests with
    | nil => rw [step_frame_nil s now hq]
    | cons c rest =>
      rw [step_frame_cons s now c rest hq]
      exact (drawCountdown_cases c { s with frameRequests := rest } now).2.2.1
  | keydown key =>
    obtain ⟨rv, rf, h⟩ := dispatchKeydown_frame s key
    simp only [step, h]
    rfl
  | finish accepted =>
    obtain ⟨nav, h⟩ := confirmFinishExperiment_frame s accepted
    simp only [step, h]
    rfl

theorem step_countdownInv (s : Page) (e : Event) (h : CountdownInv s) :
    CountdownInv (step s e) := by
  obtain ⟨h1, h2, h3⟩ := h
  cases e with
  | frame now =>
    cases hq : s.frameRequests with
    | nil =>
      rw [step_frame_nil s now hq]
      exact ⟨h1, h2, h3⟩
    | cons c rest =>
      rw [step_frame_cons s now c rest hq]
      rw [hq] at h1
      simp only [List.length_cons] at h1
      obtain ⟨-, -, hb, hcase⟩ := drawCountdown_cases c { s with frameRequests := rest } now
      simp only [] at hcase
      have hb1 : (drawCountdown c { s with frameRequests := rest } now).page.hasButtons
          = s.hasButtons := hb
      unfold CountdownInv
      rw [hb1]
      rcases hcase with ⟨-, f1, f2, f3⟩ | ⟨f1, f2, f3⟩ | ⟨-, f1, f2, f3, f4⟩
      · rw [f1, f2, f3]
        refine ⟨by simp only [List.length_append, List.length_singleton]; omega, h2, h3⟩
      · rw [f1, f2, f3]
        exact ⟨by omega, h2, h3⟩
      · rw [f1, f2]
        refine ⟨by omega, by omega, fun hbs => ?_⟩
        have := f4 hbs
        have := h3 hbs
        omega
  | keydown key =>
    obtain ⟨rv, rf, h⟩ := dispatchKeydown_frame s key
    simp only [step, h]
    exact ⟨h1, h2, h3⟩
  | finish accepted =>
    obtain ⟨nav, h⟩ := confirmFinishExperiment_frame s accepted
    simp only [step, h]
    exact ⟨h1, h2, h3⟩

theorem run_countdownInv (events : List Event) (s : Page) (h : CountdownInv s) :
    CountdownInv (run s events) := by
  induction events generalizing s with
  | nil => exact h
  | cons e es ih => exact ih _ (step_countdownInv s e h)

theorem run_hasButtons (events : List Event) (s : Page) :
    (run s events).hasButtons = s.hasButtons := by
  induction events generalizing s with
  | nil => rfl
  | cons e es ih => rw [run_cons, ih, step_hasButtons]

/-- No event takes a keydown listener away. -/
theorem step_keydownListeners_le (s : Page) (e : Event) :
    s.keydownListeners ≤ (step s e).keydownListeners := by
  cases e with
  | frame now =>
    cases hq : s.frameRequests with
    | nil => rw [step_frame_nil s now hq]
    | cons c rest =>
      rw [step_frame_cons s now c rest hq]
      obtain ⟨-, -, -, hcase⟩ := drawCountdown_cases c { s with frameRequests := rest } now
      simp only [] at hcase
      rcases hcase with ⟨-, -, -, f3⟩ | ⟨-, -, f3⟩ | ⟨-, -, -, f3, -⟩
      · exact f3.ge
      · exact f3.ge
      · rcases f3 with f3 | f3 <;> omega
  | keydown key =>
    obtain ⟨rv, rf, hk⟩ := dispatchKeydown_frame s key
    have hs : step s (.keydown key) = { s with regretValue := rv, regretForm := rf } := hk
    rw [hs]
  | finish accepted =>
    obtain ⟨nav, hk⟩ := confirmFinishExperiment_frame s accepted
    have hs : step s (.finish accepted) = { s with navigationTarget := nav } := hk
    rw [hs]

theorem run_keydownListeners_le (events : List Event) (s : Page) :
    s.keydownListeners ≤ (run s events).keydownListeners := by
  induction events generalizing s with
  | nil => exact Nat.le_refl _
  | cons e es ih => exact Nat.le_trans (step_keydownListeners_le s e) (ih (step s e))

/-- With no frame pending an event changes neither the frame requests, nor
the count of `activateInputs` calls, nor the listeners. -/
theorem step_quiet (s : Page) (e : Event) (h : s.frameRequests = []) :
    (step s e).frameRequests = []
    ∧ (step s e).activateCalls = s.activateCalls
    ∧ (step s e).keydownListeners = s.keydownListeners := by
  cases e with
  | frame now => simp [step, h]
  | keydown key =>
    obtain ⟨rv, rf, hk⟩ := dispatchKeydown_frame s key
    have hs : step s (.keydown key) = { s with regretValue := rv, regretForm := rf } := hk
    rw [hs]
    exact ⟨h, rfl, rfl⟩
  | finish accepted =>
    obtain ⟨nav, hk⟩ := confirmFinishExperiment_frame s accepted
    have hs : step s (.finish accepted) = { s with navigationTarget := nav } := hk
    rw [hs]
    exact ⟨h, rfl, rfl⟩

theorem run_quiet (events : List Event) (s : Page) (h : s.frameRequests = []) :
    (run s events).frameRequests = []
    ∧ (run s events).activateCalls = s.activateCalls
    ∧ (run s events).keydownListeners = s.keydownListeners := by
  induction events generalizing s with
  | nil => exact ⟨h, rfl, rfl⟩
  | cons e es ih =>
    obtain ⟨q1, q2, q3⟩ := step_quiet s e h
    obtain ⟨r1, r2, r3⟩ := ih (step s e) q1
    exact ⟨r1, r2.trans q2, r3.trans q3⟩

theorem step_waitingInv (rv : Option HiddenInput) (rf : Option Form) (start : ℚ)
    (s : Page) (e : Event) (h : WaitingInv rv rf start s)
    (he : ∀ now, e = .frame now → now - start < totalTime) :
    WaitingInv rv rf start (step s e) := by
  obtain ⟨h1, h2, h3, h4⟩ := h
  cases e with
  | frame now =>
    cases hq : s.frameRequests with
    | nil =>
      rw [step_frame_nil s now hq]
      exact ⟨h1, h2, h3, h4⟩
    | cons c rest =>
      rw [step_frame_cons s now c rest hq]
      rw [hq] at h4
      have hc : c.startTime = start := h4 c (List.mem_cons_self _ _)
      have ht : now - c.startTime < totalTime := by rw [hc]; exact he now rfl
      obtain ⟨g1, g2, -, hcase⟩ := drawCountdown_cases c { s with frameRequests := rest } now
      simp only [] at hcase g1 g2
      unfold WaitingInv
      rw [g1, g2]
      rcases hcase with ⟨-, f1, -, f3⟩ | ⟨f1, -, f3⟩ | ⟨f0, -⟩
      · rw [f1, f3]
        refine ⟨h1, h2, h3, fun x hx => ?_⟩
        rcases List.mem_append.mp hx with hx | hx
        · exact h4 x (List.mem_cons_of_mem _ hx)
        · rw [List.mem_singleton.mp hx]; exact hc
      · rw [f1, f3]
        exact ⟨h1, h2, h3, fun x hx => h4 x (List.mem_cons_of_mem _ hx)⟩
      · exact absurd ht (not_lt.mpr f0)
  | keydown key =>
    have : step s (.keydown key) = s := by
      simp [step, dispatchKeydown, h1]
    rw [this]
    exact ⟨h1, h2, h3, h4⟩
  | finish accepted =>
    obtain ⟨nav, hk⟩ := confirmFinishExperiment_frame s accepted
    simp only [step, hk]
    exact ⟨h1, h2, h3, h4⟩

theorem run_waitingInv (rv : Option HiddenInput) (rf : Option Form) (start : ℚ)
    (events : List Event) (s : Page) (h : WaitingInv rv rf start s)
    (he : ∀ now, Event.frame now ∈ events → now - start < totalTime) :
    WaitingInv rv rf start (run s events) := by
  induction events generalizing s with
  | nil => exact h
  | cons e es ih =>
    refine ih _ (step_waitingInv rv rf start s e h ?_) ?_
    · intro now hnow
      exact he now (by rw [hnow]; exact List.mem_cons_self _ _)
    · intro now hnow
      exact he now (List.mem_cons_of_mem _ hnow)

/-! ## Claims -/

/-- C1: on a page with the hidden input, the form and the four buttons and no
keydown listener yet, `activateInputs` returns, and after it one keydown event
for any of the four mapped keys assigns the hidden input once, with the mapped
button id minus its `Btn` (ArrowRight `noRegret`, ArrowLeft `regret`, ArrowUp
`noRemember`, ArrowDown `skip`), and submits the form exactly once. -/
theorem activateInputs_key_submits (s : Page) (input : HiddenInput) (form : Form)
    (hv : s.regretValue = some input) (hf : s.regretForm = some form)
    (hb : s.hasButtons = true) (h0 : s.keydownListeners = 0)
    (key btnId value : String) (hk : (key, btnId, value) ∈ keyTable) :
    (activateInputs s).failed = false
    ∧ keyMap key = .string btnId
    ∧ btnId = value ++ "Btn"
    ∧ value = replace btnId "Btn" ""
    ∧ (dispatchKeydown (activateInputs s).page key).regretValue
        = some { value := value, writes := value :: input.writes }
    ∧ (dispatchKeydown (activateInputs s).page key).regretForm
        = some { submits := form.submits + 1 } := by
  obtain ⟨hmap, hval, hsuffix⟩ := keyTable_mem key btnId value hk
  have hrun := iterate_keydownListener_mapped key btnId hmap 0
    { s with noRegretBtn := some { disabled := false },
             noRememberBtn := some { disabled := false },
             regretBtn := some { disabled := false },
             skipBtn := some { disabled := false },
             activateCalls := s.activateCalls + 1,
             keydownListeners := s.keydownListeners + 1 } input form hv hf
  rw [activateInputs_present s hb]
  simp only [dispatchKeydown, page_returned, h0] at hrun ⊢
  refine ⟨rfl, hmap, hsuffix, hval, ?_⟩
  rw [hrun, ← hval]
  exact ⟨rfl, rfl⟩

/-- Witness of C1 on the sample page, for ArrowDown. -/
theorem activateInputs_key_submits_witness :
    (activateInputs samplePage).failed = false
    ∧ keyMap "ArrowDown" = .string "skipBtn"
    ∧ "skipBtn" = "skip" ++ "Btn"
    ∧ "skip" = replace "skipBtn" "Btn" ""
    ∧ (dispatchKeydown (activateInputs samplePage).page "ArrowDown").regretValue
        = some { value := "skip", writes := ["skip"] }
    ∧ (dispatchKeydown (activateInputs samplePage).page "ArrowDown").regretForm
        = some { submits := 0 + 1 } :=
  activateInputs_key_submits samplePage { value := "", writes := [] } { submits := 0 }
    rfl rfl rfl rfl "ArrowDown" "skipBtn" "skip" (by decide)

/-- C2 as stated fails: on the sample page the listener, run for ArrowRight,
assigns `noRegret` to the hidden input, which is none of `noregret`,
`noremember`, `regret`, `skip`. -/
theorem keydown_value_not_lowercase :
    (keydownListener samplePage "ArrowRight").page.regretValue
        = some { value := "noRegret", writes := ["noRegret"] }
    ∧ "noRegret" ∉ specResponseValues := by
  decide

/-- C2, amended: for every page and every key, a run of the listener either
leaves the hidden input as it was or makes exactly one assignment to it, and
the value assigned is one of `noRegret`, `noRemember`, `regret`, `skip`. -/
theorem keydown_value_mem (s : Page) (key : String) :
    (keydownListener s key).page.regretValue = s.regretValue
    ∨ ∃ input v, s.regretValue = some input
        ∧ v ∈ ["noRegret", "noRemember", "regret", "skip"]
        ∧ (keydownListener s key).page.regretValue
            = some { value := v, writes := v :: input.writes } := by
  by_cases hk : key ∈ ["ArrowRight", "ArrowLeft", "ArrowUp", "ArrowDown"]
  · have hmap : ∃ btnId, keyMap key = .string btnId
        ∧ replace btnId "Btn" "" ∈ ["noRegret", "noRemember", "regret", "skip"] := by
      simp only [List.mem_cons, List.mem_singleton, List.not_mem_nil, or_false] at hk
      rcases hk with rfl | rfl | rfl | rfl
      · exact ⟨"noRegretBtn", by decide, by decide⟩
      · exact ⟨"regretBtn", by decide, by decide⟩
      · exact ⟨"noRememberBtn", by decide, by decide⟩
      · exact ⟨"skipBtn", by decide, by decide⟩
    obtain ⟨btnId, hmap, hmem⟩ := hmap
    rw [keydownListener_mapped s key btnId hmap]
    cases hv : s.regretValue with
    | none => left; simp [triggerOption, hv]
    | some input =>
      right
      refine ⟨input, replace btnId "Btn" "", rfl, hmem, ?_⟩
      cases hf : s.regretForm with
      | none => simp [triggerOption, hv, hf]
      | some form => simp [triggerOption, hv, hf]
  · left
    rw [keydownListener_unmapped s key hk]

/-- C3: for every key other than ArrowRight, ArrowLeft, ArrowUp and ArrowDown,
the names of inherited properties such as `constructor` and `toString`
included, a run of the listener leaves the whole page as it was, the hidden
input and the form with it, and so does a keydown event with any number of
listeners registered. -/
theorem unmapped_key_ignored (s : Page) (key : String)
    (h : key ∉ ["ArrowRight", "ArrowLeft", "ArrowUp", "ArrowDown"]) :
    (keydownListener s key).page = s ∧ dispatchKeydown s key = s :=
  ⟨keydownListener_unmapped s key h, dispatchKeydown_unmapped s key h⟩

/-- Witness of C3: the key `constructor` on the sample page after activation;
the listener stops at the `TypeError` and the page is as before. -/
theorem unmapped_key_ignored_witness :
    "constructor" ∉ ["ArrowRight", "ArrowLeft", "ArrowUp", "ArrowDown"]
    ∧ (keydownListener (activateInputs samplePage).page "constructor").failed = true
    ∧ (keydownListener (activateInputs samplePage).page "constructor").page
        = (activateInputs samplePage).page
    ∧ dispatchKeydown (activateInputs samplePage).page "constructor"
        = (activateInputs samplePage).page :=
  ⟨by decide, by decide,
    unmapped_key_ignored (activateInputs samplePage).page "constructor" (by decide)⟩

/-- C6: `confirmFinishExperiment` shows exactly one dialog, with the fixed
text; accepted, it sets the navigation target to `/review` and changes nothing
else; dismissed, it leaves the page as it was. -/
theorem confirmFinishExperiment_effect (s : Page) :
    (∀ accepted, (confirmFinishExperiment s accepted).dialogs = [confirmText])
    ∧ (confirmFinishExperiment s true).page = { s with navigationTarget := some "/review" }
    ∧ (confirmFinishExperiment s false).page = s := by
  refine ⟨fun accepted => ?_, rfl, rfl⟩
  cases accepted <;> rfl

/-- C7: on a page with the hidden input and the form, `triggerOption` gives
the same outcome for any two button references: it returns, the hidden input
holds the value and the form has one more submit, the rest of the page as
before; and the listener run for a mapped key is the call of `triggerOption`
with the value of the mapped button, whatever the button reference. -/
theorem triggerOption_button_irrelevant (s : Page) (input : HiddenInput) (form : Form)
    (hv : s.regretValue = some input) (hf : s.regretForm = some form)
    (v : String) (b1 b2 : Option ElementRef) :
    triggerOption s b1 v = triggerOption s b2 v
    ∧ triggerOption s b1 v
        = .returned { s with regretValue := some { value := v, writes := v :: input.writes },
                             regretForm := some { submits := form.submits + 1 } }
    ∧ ∀ key btnId value, (key, btnId, value) ∈ keyTable →
        keydownListener s key = triggerOption s b1 value := by
  refine ⟨rfl, triggerOption_present s b1 v input form hv hf, ?_⟩
  intro key btnId value hk
  obtain ⟨hmap, hval, -⟩ := keyTable_mem key btnId value hk
  rw [keydownListener_mapped s key btnId hmap, hval]
  rfl

/-- Witness of C7 on the sample page: a null reference and the `skipBtn`
reference, value `skip`. -/
theorem triggerOption_button_irrelevant_witness :
    triggerOption samplePage none "skip" = triggerOption samplePage (some .skipBtn) "skip"
    ∧ triggerOption samplePage none "skip"
        = .returned { samplePage with
            regretValue := some { value := "skip", writes := ["skip"] },
            regretForm := some { submits := 0 + 1 } }
    ∧ keydownListener samplePage "ArrowDown" = triggerOption samplePage none "skip" := by
  have h := triggerOption_button_irrelevant samplePage { value := "", writes := [] }
    { submits := 0 } rfl rfl "skip" none (some .skipBtn)
  exact ⟨h.1, h.2.1, h.2.2 "ArrowDown" "skipBtn" "skip" (by decide)⟩

/-- The page after `n + 1` calls of `activateInputs` with the four buttons there. -/
theorem activateTimes_succ (n : Nat) (s : Page) (h : s.hasButtons = true) :
    activateTimes (n + 1) s
      = { s with noRegretBtn := some { disabled := false },
                 noRememberBtn := some { disabled := false },
                 regretBtn := some { disabled := false },
                 skipBtn := some { disabled := false },
                 activateCalls := s.activateCalls + (n + 1),
                 keydownListeners := s.keydownListeners + (n + 1) } := by
  induction n with
  | zero => simp [activateTimes, activateInputs_present s h]
  | succ n ih =>
    unfold activateTimes at ih ⊢
    rw [Function.iterate_succ_apply', ih]
    simp [activateInputs, enableButtons, buttons, getButton, setButton, Nat.add_assoc]

/-- C9: on a page with the hidden input, the form and the four buttons and no
keydown listener yet, `n` calls of `activateInputs` (`n` at least 1) leave `n`
listeners registered, which no later run of events brings below `n`, and the
four buttons as one call leaves them; one keydown event for a mapped key then
makes `n` assignments of the mapped value to the hidden input and `n` submits
of the form. -/
theorem activateInputs_stacks_listeners (n : Nat) (hn : 1 ≤ n) (s : Page)
    (input : HiddenInput) (form : Form)
    (hv : s.regretValue = some input) (hf : s.regretForm = some form)
    (hb : s.hasButtons = true) (h0 : s.keydownListeners = 0) :
    (activateTimes n s).keydownListeners = n
    ∧ (∀ events, n ≤ (run (activateTimes n s) events).keydownListeners)
    ∧ (activateTimes n s).noRegretBtn = (activateTimes 1 s).noRegretBtn
    ∧ (activateTimes n s).noRememberBtn = (activateTimes 1 s).noRememberBtn
    ∧ (activateTimes n s).regretBtn = (activateTimes 1 s).regretBtn
    ∧ (activateTimes n s).skipBtn = (activateTimes 1 s).skipBtn
    ∧ ∀ key btnId value, (key, btnId, value) ∈ keyTable →
        (dispatchKeydown (activateTimes n s) key).regretValue
          = some { value := value, writes := List.replicate n value ++ input.writes }
        ∧ (dispatchKeydown (activateTimes n s) key).regretForm
          = some { submits := form.submits + n } := by
  obtain ⟨m, rfl⟩ : ∃ m, n = m + 1 := ⟨n - 1, by omega⟩
  have hmono : ∀ events, m + 1 ≤ (run (activateTimes (m + 1) s) events).keydownListeners := by
    intro events
    have hle := run_keydownListeners_le events (activateTimes (m + 1) s)
    have hn : (activateTimes (m + 1) s).keydownListeners = m + 1 := by
      rw [activateTimes_succ m s hb]
      simp [h0]
    rw [hn] at hle
    exact hle
  refine ⟨?_, hmono, ?_⟩
  · rw [activateTimes_succ m s hb]
    simp [h0]
  rw [activateTimes_succ m s hb, activateTimes_succ 0 s hb]
  refine ⟨rfl, rfl, rfl, rfl, ?_⟩
  intro key btnId value hk
  obtain ⟨hmap, hval, -⟩ := keyTable_mem key btnId value hk
  have hrun := iterate_keydownListener_mapped key btnId hmap m
    { s with noRegretBtn := some { disabled := false },
             noRememberBtn := some { disabled := false },
             regretBtn := some { disabled := false },
             skipBtn := some { disabled := false },
             activateCalls := s.activateCalls + (m + 1),
             keydownListeners := s.keydownListeners + (m + 1) } input form hv hf
  simp only [dispatchKeydown, h0, Nat.zero_add] at hrun ⊢
  rw [hrun, hval]
  exact ⟨rfl, rfl⟩

/-- Witness of C9: three calls on the sample page, then ArrowLeft. -/
theorem activateInputs_stacks_listeners_witness :
    (activateTimes 3 samplePage).keydownListeners = 3
    ∧ (dispatchKeydown (activateTimes 3 samplePage) "ArrowLeft").regretValue
        = some { value := "regret", writes := ["regret", "regret", "regret"] }
    ∧ (dispatchKeydown (activateTimes 3 samplePage) "ArrowLeft").regretForm
        = some { submits := 3 } := by
  have h := activateInputs_stacks_listeners 3 (by decide) samplePage
    { value := "", writes := [] } { submits := 0 } rfl rfl rfl rfl
  have hk := h.2.2.2.2.2.2 "ArrowLeft" "regretBtn" "regret" (by decide)
  exact ⟨h.1, hk.1, by simpa using hk.2⟩

/-- C10: `triggerOption` fails exactly when the hidden input or the form is
missing; a failed call has not submitted the form, and with the hidden input
missing it leaves the page as it was. `activateInputs` fails exactly when one
of the four buttons is missing; a failed call has registered no listener, has
enabled the buttons before the first missing one in the order noRegretBtn,
noRememberBtn, regretBtn, skipBtn, and has left the buttons after it as they
were. -/
theorem missing_element_stops_handler (s : Page) (b : Option ElementRef) (v : String) :
    ((triggerOption s b v).failed = true ↔ s.regretValue = none ∨ s.regretForm = none)
    ∧ ((triggerOption s b v).failed = true →
        (triggerOption s b v).page.regretForm = s.regretForm)
    ∧ (s.regretValue = none → (triggerOption s b v).page = s)
    ∧ ((activateInputs s).failed = true ↔
        s.noRegretBtn = none ∨ s.noRememberBtn = none ∨ s.regretBtn = none ∨ s.skipBtn = none)
    ∧ ((activateInputs s).failed = true →
        (activateInputs s).page.keydownListeners = s.keydownListeners)
    ∧ (s.noRegretBtn = none →
        (activateInputs s).page.noRegretBtn = none
        ∧ (activateInputs s).page.noRememberBtn = s.noRememberBtn
        ∧ (activateInputs s).page.regretBtn = s.regretBtn
        ∧ (activateInputs s).page.skipBtn = s.skipBtn)
    ∧ (s.noRegretBtn ≠ none → s.noRememberBtn = none →
        (activateInputs s).page.noRegretBtn = some { disabled := false }
        ∧ (activateInputs s).page.noRememberBtn = none
        ∧ (activateInputs s).page.regretBtn = s.regretBtn
        ∧ (activateInputs s).page.skipBtn = s.skipBtn)
    ∧ (s.noRegretBtn ≠ none → s.noRememberBtn ≠ none → s.regretBtn = none →
        (activateInputs s).page.noRegretBtn = some { disabled := false }
        ∧ (activateInputs s).page.noRememberBtn = some { disabled := false }
        ∧ (activateInputs s).page.regretBtn = none
        ∧ (activateInputs s).page.skipBtn = s.skipBtn)
    ∧ (s.noRegretBtn ≠ none → s.noRememberBtn ≠ none → s.regretBtn ≠ none →
        s.skipBtn = none →
        (activateInputs s).page.noRegretBtn = some { disabled := false }
        ∧ (activateInputs s).page.noRememberBtn = some { disabled := false }
        ∧ (activateInputs s).page.regretBtn = some { disabled := false }
        ∧ (activateInputs s).page.skipBtn = none) := by
  refine ⟨?_, ?_, ?_, ?_⟩
  · cases hv : s.regretValue <;> cases hf : s.regretForm <;> simp [triggerOption, hv, hf]
  · cases hv : s.regretValue <;> cases hf : s.regretForm <;> simp [triggerOption, hv, hf]
  · intro hv
    simp [triggerOption, hv]
  · cases h1 : s.noRegretBtn <;> cases h2 : s.noRememberBtn <;> cases h3 : s.regretBtn <;>
      cases h4 : s.skipBtn <;>
      simp [activateInputs, enableButtons, buttons, getButton, setButton, h1, h2, h3, h4]

/-- Witness of C10: without `noRememberBtn`, `activateInputs` fails after it
has enabled `noRegretBtn`; `regretBtn` and `skipBtn` stay disabled and no
listener is registered. -/
theorem missing_element_stops_handler_witness :
    (activateInputs pageWithoutNoRememberBtn).failed = true
    ∧ (activateInputs pageWithoutNoRememberBtn).page.keydownListeners = 0
    ∧ (activateInputs pageWithoutNoRememberBtn).page.noRegretBtn = some { disabled := false }
    ∧ (activateInputs pageWithoutNoRememberBtn).page.noRememberBtn = none
    ∧ (activateInputs pageWithoutNoRememberBtn).page.regretBtn = some { disabled := true }
    ∧ (activateInputs pageWithoutNoRememberBtn).page.skipBtn = some { disabled := true } := by
  have h := missing_element_stops_handler pageWithoutNoRememberBtn none ""
  have hfail := h.2.2.2.1.mpr (Or.inr (Or.inl rfl))
  exact ⟨hfail, h.2.2.2.2.1 hfail, h.2.2.2.2.2.2.1 (by decide) rfl⟩

/-- C4: one run of the frame callback at the clock reading `now`, the
elapsed time being `now - startTime`. Before 5000 ms the four buttons and the
listener count stay as they were and, when the drawing calls go through, the
callback returns with exactly one more frame requested. From 5000 ms on no
frame is requested and, when the drawing calls go through and the four buttons
are there, all four end with `disabled` false. -/
theorem drawCountdown_frame (c : FrameCallback) (s : Page) (now : ℚ) :
    (now - c.startTime < 5000 →
        (drawCountdown c s now).page.noRegretBtn = s.noRegretBtn
        ∧ (drawCountdown c s now).page.noRememberBtn = s.noRememberBtn
        ∧ (drawCountdown c s now).page.regretBtn = s.regretBtn
        ∧ (drawCountdown c s now).page.skipBtn = s.skipBtn
        ∧ (drawCountdown c s now).page.keydownListeners = s.keydownListeners
        ∧ (s.drawable = true →
            (drawCountdown c s now).failed = false
            ∧ (drawCountdown c s now).page.frameRequests = s.frameRequests ++ [c]))
    ∧ (5000 ≤ now - c.startTime →
        (drawCountdown c s now).page.frameRequests = s.frameRequests
        ∧ (s.drawable = true → s.hasButtons = true →
            (drawCountdown c s now).failed = false
            ∧ (drawCountdown c s now).page.noRegretBtn = some { disabled := false }
            ∧ (drawCountdown c s now).page.noRememberBtn = some { disabled := false }
            ∧ (drawCountdown c s now).page.regretBtn = some { disabled := false }
            ∧ (drawCountdown c s now).page.skipBtn = some { disabled := false })) := by
  constructor
  · intro ht
    have ht1 : now - c.startTime < totalTime := ht
    unfold drawCountdown drawSector
    cases hc : s.countdown with
    | none => simp [Page.drawable, hc]
    | some canvas =>
      by_cases hr : (canvas.width : ℚ) / 2 - 2 < 0
      · simp [hr, Page.drawable, hc]
      · simp [hr, ht1, Page.drawable, hc]
  · intro ht
    have ht1 : ¬ now - c.startTime < totalTime := not_lt.mpr ht
    refine ⟨?_, ?_⟩
    · rcases (drawCountdown_cases c s now).2.2.2 with h | h | h
      · exact absurd h.1 ht1
      · exact h.1
      · exact h.2.1
    · intro hd hb
      unfold drawCountdown drawSector
      cases hc : s.countdown with
      | none => simp [Page.drawable, hc] at hd
      | some canvas =>
        have hr : ¬ (canvas.width : ℚ) / 2 - 2 < 0 := by
          simpa [Page.drawable, hc] using hd
        have ha := activateInputs_present
          { s with countdown := some ⟨canvas.width, canvas.height,
              some ((now - c.startTime) / totalTime)⟩ }
          hb
        simp only [hr, ht1, if_false]
        rw [ha]
        simp

/-- Witness of C4 on the sample page with the countdown started at 0: a frame
at 1000 ms requests the next frame and leaves the buttons disabled; a frame at
5000 ms requests none and enables the four buttons. -/
theorem drawCountdown_frame_witness :
    ((drawCountdown { startTime := 0 } samplePage 1000).page.noRegretBtn
        = some { disabled := true }
      ∧ (drawCountdown { startTime := 0 } samplePage 1000).page.frameRequests
        = [{ startTime := 0 }])
    ∧ ((drawCountdown { startTime := 0 } samplePage 5000).page.frameRequests = []
      ∧ (drawCountdown { startTime := 0 } samplePage 5000).page.skipBtn
        = some { disabled := false }) := by
  have h := drawCountdown_frame { startTime := 0 } samplePage
  have hd : samplePage.drawable = true := by
    simp [Page.drawable, samplePage, sampleDocument, Document.toPage]; norm_num
  have h1 := (h 1000).1 (by norm_num)
  have h2 := (h 5000).2 (by norm_num)
  exact ⟨⟨h1.1, (h1.2.2.2.2.2 hd).2⟩, ⟨h2.1, (h2.2 hd rfl).2.2.2.2⟩⟩

/-- C5: take the page after `DOMContentLoaded` with the countdown started at
`start`, and any run of events all of whose animation frames have an elapsed
time below 5000 ms. After the run no keydown listener is registered, the
hidden input and the form are as the document was served, and a keydown event
for any key, ArrowRight included, leaves the whole page as it is. -/
theorem no_listener_before_countdown_ends (d : Document) (start : ℚ) (events : List Event)
    (h : ∀ now, Event.frame now ∈ events → now - start < 5000) :
    (run (pageLoaded d start) events).keydownListeners = 0
    ∧ (run (pageLoaded d start) events).regretValue = d.regretValue
    ∧ (run (pageLoaded d start) events).regretForm = d.regretForm
    ∧ ∀ key, step (run (pageLoaded d start) events) (.keydown key)
        = run (pageLoaded d start) events := by
  obtain ⟨p1, p2, -, p4, -, p6⟩ := pageLoaded_fields d start
  have hinit : WaitingInv d.regretValue d.regretForm start (pageLoaded d start) := by
    refine ⟨p4, p1, p2, fun c hc => ?_⟩
    rcases p6 with p6 | p6
    · rw [p6] at hc; exact absurd hc (List.not_mem_nil _)
    · rw [p6] at hc; rw [List.mem_singleton.mp hc]
  obtain ⟨r1, r2, r3, -⟩ := run_waitingInv d.regretValue d.regretForm start events _ hinit h
  refine ⟨r1, r2, r3, fun key => ?_⟩
  simp [step, dispatchKeydown, r1]

/-- Witness of C5: the sample document, frames at 16, 2500 and 4999.9 ms with
ArrowRight pressed in between. -/
theorem no_listener_before_countdown_ends_witness :
    (run (pageLoaded sampleDocument 0)
        [.frame 16, .keydown "ArrowRight", .frame 2500, .frame 4999.9,
          .keydown "ArrowRight"]).keydownListeners = 0
    ∧ (run (pageLoaded sampleDocument 0)
        [.frame 16, .keydown "ArrowRight", .frame 2500, .frame 4999.9,
          .keydown "ArrowRight"]).regretForm = some { submits := 0 } := by
  have h := no_listener_before_countdown_ends sampleDocument 0
    [.frame 16, .keydown "ArrowRight", .frame 2500, .frame 4999.9, .keydown "ArrowRight"]
    (by
      intro now hnow
      simp only [List.mem_cons, List.mem_singleton, Event.frame.injEq, List.not_mem_nil,
        or_false, false_or, reduceCtorEq] at hnow
      rcases hnow with rfl | rfl | rfl <;> norm_num)
  exact ⟨h.1, h.2.2.1⟩

/-- C8: take the page after `DOMContentLoaded` and any run of events, with any
clock readings. At every point of the run at most one frame is pending,
`activateInputs` has been called at most once, and at most one keydown
listener is registered, exactly one per call when the four buttons are there.
Once `activateInputs` has been called, no later event requests a frame, calls
it again or registers a listener. -/
theorem countdown_activates_once (d : Document) (start : ℚ) (events more : List Event) :
    (run (pageLoaded d start) events).frameRequests.length ≤ 1
    ∧ (run (pageLoaded d start) events).activateCalls ≤ 1
    ∧ (run (pageLoaded d start) events).keydownListeners
        ≤ (run (pageLoaded d start) events).activateCalls
    ∧ (d.toPage.hasButtons = true →
        (run (pageLoaded d start) events).keydownListeners
          = (run (pageLoaded d start) events).activateCalls)
    ∧ ((run (pageLoaded d start) events).activateCalls = 1 →
        (run (run (pageLoaded d start) events) more).frameRequests = []
        ∧ (run (run (pageLoaded d start) events) more).activateCalls = 1
        ∧ (run (run (pageLoaded d start) events) more).keydownListeners
            = (run (pageLoaded d start) events).keydownListeners) := by
  obtain ⟨-, -, p3, p4, p5, p6⟩ := pageLoaded_fields d start
  have hinit : CountdownInv (pageLoaded d start) := by
    refine ⟨?_, by omega, fun _ => by omega⟩
    rcases p6 with p6 | p6 <;> simp [p5, p6]
  obtain ⟨i1, i2, i3⟩ := run_countdownInv events _ hinit
  rw [run_hasButtons, p3] at i3
  refine ⟨by omega, by omega, i2, i3, fun hcall => ?_⟩
  have hq : (run (pageLoaded d start) events).frameRequests = [] := by
    apply List.eq_nil_of_length_eq_zero
    omega
  obtain ⟨q1, q2, q3⟩ := run_quiet more _ hq
  exact ⟨q1, q2.trans hcall, q3⟩

/-- Witness of C8: the sample document with frames at 1000 and 5000 ms; the
second calls `activateInputs`. A later frame and a key press request no frame
and leave the one listener. -/
theorem countdown_activates_once_witness :
    (run (pageLoaded sampleDocument 0) [.frame 1000, .frame 5000]).activateCalls = 1
    ∧ (run (pageLoaded sampleDocument 0) [.frame 1000, .frame 5000]).keydownListeners = 1
    ∧ (run (run (pageLoaded sampleDocument 0) [.frame 1000, .frame 5000])
        [.frame 6000, .keydown "ArrowDown"]).frameRequests = []
    ∧ (run (run (pageLoaded sampleDocument 0) [.frame 1000, .frame 5000])
        [.frame 6000, .keydown "ArrowDown"]).keydownListeners = 1 := by
  have h := countdown_activates_once sampleDocument 0 [.frame 1000, .frame 5000]
    [.frame 6000, .keydown "ArrowDown"]
  have hcall : (run (pageLoaded sampleDocument 0) [.frame 1000, .frame 5000]).activateCalls
      = 1 := by
    simp [run, step, pageLoaded, startCountdown, sampleDocument, Document.toPage,
      drawCountdown, drawSector, totalTime, activateInputs, enableButtons, buttons,
      getButton, setButton]
    norm_num
  have hlisten := h.2.2.2.1 rfl
  have hlater := h.2.2.2.2 hcall
  exact ⟨hcall, hlisten.trans hcall, hlater.1, hlater.2.2.trans (hlisten.trans hcall)⟩

end Regrets
